import Mathlib

/-!
Verification of the daily-diet API's core computations, shallowly embedded
from `src/routes/users.ts` and `src/routes/meals.ts`.

The metrics endpoint (`GET /users/metrics`) materialises the user's meal
rows and runs a single linear pass computing totals and the best streak of
in-diet meals.  The handler compares the row field `inDiet` with the
integers `1` and `0` using JavaScript strict equality, so the row field is
modelled as a JavaScript runtime value.
-/

namespace DailyDiet

/-- A JavaScript runtime value as it can appear in a row object's field:
an integral number, a boolean, a string, or `undefined` (the value of a
property the row object does not carry). -/
inductive JSValue where
  | num (n : ℤ)
  | bool (b : Bool)
  | str (s : String)
  | undef

deriving instance DecidableEq for JSValue

/-- JavaScript strict equality `v === k` of a runtime value against an
integer literal: true exactly when `v` is a number equal to `k`
(`===` performs no coercion, so `true === 1` and `undefined === 0` are
both false). -/
def jsStrictEqNum (v : JSValue) (k : ℤ) : Bool :=
  match v with
  | JSValue.num n => n == k
  | _ => false

/-- A row of the `meals` table as selected by the metrics handler
(`users.ts` lines 66-74): `id`, `user_id`, `name`, `description`,
`dateAndHour`, `inDiet`. -/
structure MealRow where
  id : String
  user_id : String
  name : String
  description : String
  dateAndHour : String
  inDiet : JSValue

deriving instance DecidableEq for MealRow

/-- The in-diet classification of the metrics handler:
`item.inDiet === 1` (`users.ts` lines 86-88 and 97). -/
def inDietFlag (m : MealRow) : Bool := jsStrictEqNum m.inDiet 1

/-- The off-diet classification of the metrics handler:
`item.inDiet === 0` (`users.ts` lines 89-91). -/
def offDietFlag (m : MealRow) : Bool := jsStrictEqNum m.inDiet 0

/-- The streak-reconciliation step of the metrics handler:
`if (currentStreak > maxStreak) maxStreak = currentStreak`
(`users.ts` lines 100-102 and 107-109). -/
def reconcileMax (currentStreak maxStreak : ℕ) : ℕ :=
  if currentStreak > maxStreak then currentStreak else maxStreak

/-- The single-pass streak loop of the metrics handler (`users.ts` lines
96-105), threading the `currentStreak` and `maxStreak` accumulators and
returning their final values: an in-diet meal increments `currentStreak`,
any other meal reconciles `maxStreak` and resets `currentStreak` to 0. -/
def streakLoop : List MealRow → ℕ → ℕ → ℕ × ℕ
  | [], currentStreak, maxStreak => (currentStreak, maxStreak)
  | meal :: rest, currentStreak, maxStreak =>
    if inDietFlag meal then
      streakLoop rest (currentStreak + 1) maxStreak
    else
      streakLoop rest 0 (reconcileMax currentStreak maxStreak)

/-- The value of `maxStreak` after running the loop from the given
accumulators and performing the final reconciliation of `users.ts` lines
107-109. -/
def bestFrom (meals : List MealRow) (currentStreak maxStreak : ℕ) : ℕ :=
  let r := streakLoop meals currentStreak maxStreak
  reconcileMax r.1 r.2

/-- `bestSequenceOfMealsWithinTheDiet` as computed by the metrics handler:
the loop started from `currentStreak = 0`, `maxStreak = 0`, followed by
the final reconciliation. -/
def bestStreak (meals : List MealRow) : ℕ := bestFrom meals 0 0

/-- The metrics object returned by `GET /users/metrics`
(`users.ts` lines 111-116). -/
structure Metrics where
  totalNumberOfMeals : ℕ
  totalNumberOfMealsInTheDiet : ℕ
  totalNumberOfMealsOffTheDiet : ℕ
  bestSequenceOfMealsWithinTheDiet : ℕ

deriving instance DecidableEq for Metrics

/-- Outcome of the metrics handler: an HTTP error response or the metrics
object. -/
inductive MetricsResult where
  | error (status : ℕ) (message : String)
  | ok (metrics : Metrics)

deriving instance DecidableEq for MetricsResult

/-- `GET /users/metrics` (`users.ts` lines 78-118) applied to the
materialised list of the resolved user's meal rows: an empty list yields
the 404 no-data response, otherwise the totals and the best streak are
computed. -/
def getMetrics (meals : List MealRow) : MetricsResult :=
  if meals.length == 0 then
    MetricsResult.error 404 ("Você não tem nenhuma refeição cadastrada para obter métricas.")
  else
    MetricsResult.ok
      ⟨meals.length,
       (meals.filter inDietFlag).length,
       (meals.filter offDietFlag).length,
       bestStreak meals⟩

lemma bestFrom_nil (c m : ℕ) : bestFrom [] c m = reconcileMax c m := rfl

lemma bestFrom_cons (x : MealRow) (l : List MealRow) (c m : ℕ) :
    bestFrom (x :: l) c m =
      if inDietFlag x then bestFrom l (c + 1) m else bestFrom l 0 (reconcileMax c m) := by
  by_cases h : inDietFlag x <;> simp [bestFrom, streakLoop, h]

lemma reconcileMax_left_le (c m : ℕ) : c ≤ reconcileMax c m := by
  unfold reconcileMax; split <;> omega

lemma reconcileMax_right_le (c m : ℕ) : m ≤ reconcileMax c m := by
  unfold reconcileMax; split <;> omega

lemma maxStreak_le_bestFrom (l : List MealRow) : ∀ c m : ℕ, m ≤ bestFrom l c m := by
  induction l with
  | nil => intro c m; rw [bestFrom_nil]; exact reconcileMax_right_le c m
  | cons x xs ih =>
    intro c m
    rw [bestFrom_cons]
    by_cases h : inDietFlag x
    · simp only [h, if_true]
      exact ih (c + 1) m
    · simp only [h, Bool.false_eq_true, if_false]
      exact le_trans (reconcileMax_right_le c m) (ih 0 (reconcileMax c m))

lemma currentStreak_le_bestFrom (l : List MealRow) : ∀ c m : ℕ, c ≤ bestFrom l c m := by
  induction l with
  | nil => intro c m; rw [bestFrom_nil]; exact reconcileMax_left_le c m
  | cons x xs ih =>
    intro c m
    rw [bestFrom_cons]
    by_cases h : inDietFlag x
    · simp only [h, if_true]
      exact le_trans (Nat.le_succ c) (ih (c + 1) m)
    · simp only [h, Bool.false_eq_true, if_false]
      exact le_trans (reconcileMax_left_le c m) (maxStreak_le_bestFrom xs 0 (reconcileMax c m))

/-- A fully in-diet block standing at the head of the remaining input pushes
the reconciled answer to at least the pending streak plus the block length. -/
lemma bestFrom_all_run (t : List MealRow) (e : List MealRow)
    (ht : ∀ x ∈ t, inDietFlag x = true) :
    ∀ c m : ℕ, c + t.length ≤ bestFrom (t ++ e) c m := by
  induction t with
  | nil =>
    intro c m
    simpa using currentStreak_le_bestFrom e c m
  | cons x t ih =>
    intro c m
    have hx : inDietFlag x = true := ht x (by simp)
    rw [List.cons_append, bestFrom_cons, if_pos hx]
    have h2 := ih (fun y hy => ht y (by simp [hy])) (c + 1) m
    simp only [List.length_cons]
    omega

/-- Maximality: any contiguous fully in-diet block of the input bounds the
reconciled answer from below, whatever the accumulators. -/
lemma run_le_bestFrom (s t e : List MealRow)
    (ht : ∀ x ∈ t, inDietFlag x = true) :
    ∀ c m : ℕ, t.length ≤ bestFrom (s ++ (t ++ e)) c m := by
  induction s with
  | nil =>
    intro c m
    have := bestFrom_all_run t e ht c m
    simp only [List.nil_append] at *
    omega
  | cons x s ih =>
    intro c m
    rw [List.cons_append, bestFrom_cons]
    by_cases h : inDietFlag x
    · simp only [h, if_true]
      exact ih (c + 1) m
    · simp only [h, Bool.false_eq_true, if_false]
      exact ih 0 (reconcileMax c m)

/-- Achievability: the reconciled answer is the incoming `maxStreak`, or the
pending streak extended by a fully in-diet prefix, or the length of some
contiguous fully in-diet block of the input. -/
lemma bestFrom_attained (l : List MealRow) : ∀ c m : ℕ,
    bestFrom l c m = m ∨
    (∃ t e, t ++ e = l ∧ (∀ x ∈ t, inDietFlag x = true) ∧
      bestFrom l c m = c + t.length) ∨
    (∃ s t e, s ++ (t ++ e) = l ∧ (∀ x ∈ t, inDietFlag x = true) ∧
      bestFrom l c m = t.length) := by
  induction l with
  | nil =>
    intro c m
    by_cases h : c > m
    · refine Or.inr (Or.inl ⟨[], [], rfl, by simp, ?_⟩)
      simp [bestFrom_nil, reconcileMax, h]
    · refine Or.inl ?_
      simp [bestFrom_nil, reconcileMax, h]
  | cons x xs ih =>
    intro c m
    by_cases hx : inDietFlag x
    · rcases ih (c + 1) m with h | ⟨t, e, htl, hall, hval⟩ | ⟨s, t, e, hl, hall, hval⟩
      · refine Or.inl ?_
        rw [bestFrom_cons, if_pos hx]; exact h
      · refine Or.inr (Or.inl ⟨x :: t, e, by rw [List.cons_append, htl], ?_, ?_⟩)
        · intro y hy
          rcases List.mem_cons.mp hy with h | h
          · rw [h]; exact hx
          · exact hall y h
        · rw [bestFrom_cons, if_pos hx, hval]
          simp only [List.length_cons]
          omega
      · refine Or.inr (Or.inr ⟨x :: s, t, e, by rw [List.cons_append, hl], hall, ?_⟩)
        rw [bestFrom_cons, if_pos hx]; exact hval
    · rcases ih 0 (reconcileMax c m) with h | ⟨t, e, htl, hall, hval⟩ | ⟨s, t, e, hl, hall, hval⟩
      · by_cases hcm : c > m
        · refine Or.inr (Or.inl ⟨[], x :: xs, by simp, by simp, ?_⟩)
          rw [bestFrom_cons, if_neg hx, h]
          simp [reconcileMax, hcm]
        · refine Or.inl ?_
          rw [bestFrom_cons, if_neg hx, h]
          simp [reconcileMax, hcm]
      · refine Or.inr (Or.inr ⟨[x], t, e, by simp [htl], hall, ?_⟩)
        rw [bestFrom_cons, if_neg hx, hval]
        omega
      · refine Or.inr (Or.inr ⟨x :: s, t, e, by rw [List.cons_append, hl], hall, ?_⟩)
        rw [bestFrom_cons, if_neg hx]; exact hval

/-- Inversion of a successful metrics response: the returned object carries
exactly the counts and the reconciled streak computed by the handler. -/
lemma getMetrics_ok_elim (meals : List MealRow) (r : Metrics)
    (h : getMetrics meals = MetricsResult.ok r) :
    r = ⟨meals.length, (meals.filter inDietFlag).length,
         (meals.filter offDietFlag).length, bestStreak meals⟩ := by
  unfold getMetrics at h
  split at h
  · exact absurd h (by simp)
  · injection h with h2
    exact h2.symm

/-- When every stored flag is the integer 0 or 1, the two filters of the
metrics handler partition the meal list. -/
lemma length_eq_filter_partition (l : List MealRow)
    (h : ∀ x ∈ l, x.inDiet = JSValue.num 0 ∨ x.inDiet = JSValue.num 1) :
    l.length = (l.filter inDietFlag).length + (l.filter offDietFlag).length := by
  induction l with
  | nil => rfl
  | cons x xs ih =>
    have hxs := ih (fun y hy => h y (by simp [hy]))
    rcases h x (by simp) with h0 | h1
    · simp only [List.filter_cons, inDietFlag, offDietFlag, jsStrictEqNum, h0,
        List.length_cons]
      simp only [show ((0 : ℤ) == 1) = false from rfl,
        show ((0 : ℤ) == 0) = true from rfl, if_true, Bool.false_eq_true, if_false,
        List.length_cons]
      omega
    · simp only [List.filter_cons, inDietFlag, offDietFlag, jsStrictEqNum, h1,
        List.length_cons]
      simp only [show ((1 : ℤ) == 1) = true from rfl,
        show ((1 : ℤ) == 0) = false from rfl, if_true, Bool.false_eq_true, if_false,
        List.length_cons]
      omega

/-- Sample meal rows used to instantiate the universally quantified
theorems on concrete inputs. -/
def mkRow (i : String) (v : JSValue) : MealRow :=
  ⟨i, "u1", "refeicao", "descricao", "2023-11-06", v⟩

/-- The trailing-streak scenario of the spec: stored flags 1, 0, 1, 1. -/
def mealsTrailing : List MealRow :=
  [mkRow ("m1") (JSValue.num 1), mkRow ("m2") (JSValue.num 0),
   mkRow ("m3") (JSValue.num 1), mkRow ("m4") (JSValue.num 1)]

/-- A meal row whose stored flag is the boolean `true` rather than the
integer 1 (as written by the meal-creation handler under `isOnTheDiet`
while the metrics handler reads `inDiet`). -/
def boolTrueMeal : MealRow := mkRow ("mb") (JSValue.bool true)

/-- Claim C1: for every sequence of meal records accepted by the metrics
computation, the returned `bestSequenceOfMealsWithinTheDiet` (the
currentStreak/maxStreak single pass with final reconciliation) equals the
length of the longest contiguous run, in the given order, of meals whose
diet-compliance flag is true. -/
theorem metrics_best_is_longest_run (meals : List MealRow) (r : Metrics)
    (h : getMetrics meals = MetricsResult.ok r) :
    (∃ s t e, s ++ t ++ e = meals ∧ (∀ x ∈ t, inDietFlag x = true) ∧
      t.length = r.bestSequenceOfMealsWithinTheDiet) ∧
    (∀ s t e, s ++ t ++ e = meals → (∀ x ∈ t, inDietFlag x = true) →
      t.length ≤ r.bestSequenceOfMealsWithinTheDiet) := by
  have hr := getMetrics_ok_elim meals r h
  subst hr
  constructor
  · rcases bestFrom_attained meals 0 0 with h0 | ⟨t, e, htl, hall, hval⟩ |
      ⟨s, t, e, hl, hall, hval⟩
    · exact ⟨[], [], meals, by simp, by simp, by simp [bestStreak, h0]⟩
    · refine ⟨[], t, e, by simpa using htl, hall, ?_⟩
      show t.length = bestStreak meals
      rw [bestStreak, hval]
      omega
    · refine ⟨s, t, e, ?_, hall, ?_⟩
      · rw [List.append_assoc]; exact hl
      · show t.length = bestStreak meals
        rw [bestStreak, hval]
  · intro s t e hdec hall
    have h1 := run_le_bestFrom s t e hall 0 0
    rw [List.append_assoc] at hdec
    rw [hdec] at h1
    exact h1

/-- Claim C1 instantiated on the concrete flag sequence 1, 0, 1, 1, whose
best streak is 2. -/
theorem metrics_best_is_longest_run_check :
    (∃ s t e, s ++ t ++ e = mealsTrailing ∧ (∀ x ∈ t, inDietFlag x = true) ∧
      t.length = (Metrics.mk 4 3 1 2).bestSequenceOfMealsWithinTheDiet) ∧
    (∀ s t e, s ++ t ++ e = mealsTrailing → (∀ x ∈ t, inDietFlag x = true) →
      t.length ≤ (Metrics.mk 4 3 1 2).bestSequenceOfMealsWithinTheDiet) :=
  metrics_best_is_longest_run mealsTrailing (Metrics.mk 4 3 1 2) (by decide)

/-- Claim C2 counterexample: a single meal whose stored flag is the boolean
`true` is counted in neither partition, so the returned totals violate
`totalNumberOfMeals = totalNumberOfMealsInTheDiet + totalNumberOfMealsOffTheDiet`. -/
theorem metrics_total_partition_cex :
    ∃ r, getMetrics [boolTrueMeal] = MetricsResult.ok r ∧
      r.totalNumberOfMeals ≠
        r.totalNumberOfMealsInTheDiet + r.totalNumberOfMealsOffTheDiet :=
  ⟨⟨1, 0, 0, 0⟩, by decide, by decide⟩

/-- Claim C2 (amended): for every sequence of meal records whose stored
flag values are all the integer 0 or the integer 1, the metrics
computation satisfies `totalNumberOfMeals = totalNumberOfMealsInTheDiet +
totalNumberOfMealsOffTheDiet`. -/
theorem metrics_total_partition (meals : List MealRow)
    (hvals : ∀ x ∈ meals, x.inDiet = JSValue.num 0 ∨ x.inDiet = JSValue.num 1)
    (r : Metrics) (h : getMetrics meals = MetricsResult.ok r) :
    r.totalNumberOfMeals =
      r.totalNumberOfMealsInTheDiet + r.totalNumberOfMealsOffTheDiet := by
  have hr := getMetrics_ok_elim meals r h
  subst hr
  exact length_eq_filter_partition meals hvals

/-- Claim C2 (amended) instantiated on the concrete flag sequence
1, 0, 1, 1: totals 4 = 3 + 1. -/
theorem metrics_total_partition_check :
    (Metrics.mk 4 3 1 2).totalNumberOfMeals =
      (Metrics.mk 4 3 1 2).totalNumberOfMealsInTheDiet +
        (Metrics.mk 4 3 1 2).totalNumberOfMealsOffTheDiet :=
  metrics_total_partition mealsTrailing (by decide) (Metrics.mk 4 3 1 2) (by decide)

/-- Claim C3: for every sequence of meal records accepted by the metrics
computation, `bestSequenceOfMealsWithinTheDiet` is at most
`totalNumberOfMealsInTheDiet`. -/
theorem metrics_best_le_inDiet (meals : List MealRow) (r : Metrics)
    (h : getMetrics meals = MetricsResult.ok r) :
    r.bestSequenceOfMealsWithinTheDiet ≤ r.totalNumberOfMealsInTheDiet := by
  have hr := getMetrics_ok_elim meals r h
  subst hr
  show bestStreak meals ≤ (meals.filter inDietFlag).length
  rcases bestFrom_attained meals 0 0 with h0 | ⟨t, e, htl, hall, hval⟩ |
    ⟨s, t, e, hl, hall, hval⟩
  · simp [bestStreak, h0]
  · rw [bestStreak, hval, ← htl, List.filter_append, List.filter_eq_self.mpr hall,
      List.length_append]
    omega
  · rw [bestStreak, hval, ← hl, List.filter_append, List.filter_append,
      List.filter_eq_self.mpr hall, List.length_append, List.length_append]
    omega

/-- Claim C3 instantiated on the concrete flag sequence 1, 0, 1, 1:
best streak 2 is at most the in-diet total 3. -/
theorem metrics_best_le_inDiet_check :
    (Metrics.mk 4 3 1 2).bestSequenceOfMealsWithinTheDiet ≤
      (Metrics.mk 4 3 1 2).totalNumberOfMealsInTheDiet :=
  metrics_best_le_inDiet mealsTrailing (Metrics.mk 4 3 1 2) (by decide)

/-- Claim C4: for an empty meal list the metrics handler returns the 404
no-data response and never the all-zero metrics object. -/
theorem metrics_empty_is_no_data :
    getMetrics [] =
      MetricsResult.error 404
        ("Você não tem nenhuma refeição cadastrada para obter métricas.") ∧
    getMetrics [] ≠ MetricsResult.ok ⟨0, 0, 0, 0⟩ :=
  ⟨rfl, by decide⟩

/-- Claim C5: on the compliance-flag sequence true, false, true, true
(stored as the integers 1, 0, 1, 1) the metrics computation returns
`bestSequenceOfMealsWithinTheDiet = 2`, exercising the final
reconciliation of a streak that reaches the end of the sequence. -/
theorem metrics_trailing_streak :
    ∃ r, getMetrics mealsTrailing = MetricsResult.ok r ∧
      r.bestSequenceOfMealsWithinTheDiet = 2 :=
  ⟨⟨4, 3, 1, 2⟩, by decide, rfl⟩

/-- A row of the `users` table as inserted by `POST /users`
(`users.ts` lines 159-167). -/
structure UserRow where
  id : String
  name : String
  email : String
  address : String
  weight : ℤ
  height : ℤ
  session_id : String

deriving instance DecidableEq for UserRow

/-- Session resolution as performed at the top of the summary handlers:
`const [user] = await knex('users').where('session_id', sessionId).select('id')`
destructures the first matching row, yielding its `id` or `undefined`. -/
def resolveUserId (users : List UserRow) (sessionId : String) : Option String :=
  (users.find? (fun u => u.session_id == sessionId)).map (fun u => u.id)

/-- JavaScript whitespace stripped by `parseInt` before parsing. -/
def isJsWhitespace (c : Char) : Bool :=
  c = ' ' || c = '\t' || c = '\n' || c = '\r'

/-- Decimal digit test used by `parseInt` with the default radix. -/
def isDecDigit (c : Char) : Bool := '0' ≤ c && c ≤ '9'

/-- Hexadecimal digit test used by `parseInt` after a `0x` prefix. -/
def isHexDigitJS (c : Char) : Bool :=
  ('0' ≤ c && c ≤ '9') || ('a' ≤ c && c ≤ 'f') || ('A' ≤ c && c ≤ 'F')

/-- Numeric value of a decimal or hexadecimal digit character. -/
def hexDigitVal (c : Char) : ℕ :=
  if '0' ≤ c && c ≤ '9' then c.toNat - 48
  else if 'a' ≤ c && c ≤ 'f' then c.toNat - 87
  else c.toNat - 55

/-- Value of a digit string in the given base. -/
def digitsVal (base : ℕ) (ds : List Char) : ℕ :=
  ds.foldl (fun a c => a * base + hexDigitVal c) 0

/-- JavaScript `parseInt` with no radix argument: strip leading whitespace,
read an optional sign, honour a `0x`/`0X` prefix as hexadecimal, then parse
the longest digit prefix; `none` models the `NaN` result when no digit is
found. -/
def parseIntJS (s : String) : Option ℤ :=
  let cs := s.toList.dropWhile isJsWhitespace
  let signed : ℤ × List Char :=
    match cs with
    | '-' :: rest => (-1, rest)
    | '+' :: rest => (1, rest)
    | rest => (1, rest)
  let body := signed.2
  let hex : Bool :=
    match body with
    | '0' :: x :: _ => x = 'x' || x = 'X'
    | _ => false
  if hex then
    let ds := (body.drop 2).takeWhile isHexDigitJS
    if ds.isEmpty then none else some (signed.1 * (digitsVal 16 ds : ℤ))
  else
    let ds := body.takeWhile isDecDigit
    if ds.isEmpty then none else some (signed.1 * (digitsVal 10 ds : ℤ))

/-- The labeled aggregate returned by `GET /meals/summary` (`meals.ts`
lines 286-302): total recorded, total compliant, total non-compliant.
`none` models a `NaN` field produced by a non-parseable count. -/
structure MealsSummary where
  totalRegistered : Option ℤ
  totalInDiet : Option ℤ
  totalOffDiet : Option ℤ

deriving instance DecidableEq for MealsSummary

/-- Outcome of the meals-summary handler: an error response sent by the
handler itself, a summary object, or an exception escaping the handler
(`thrown`), which the HTTP framework surfaces as its generic 500
internal-server-error response. -/
inductive MealsSummaryResult where
  | error (status : ℕ) (message : String)
  | ok (summary : MealsSummary)
  | thrown (message : String)

deriving instance DecidableEq for MealsSummaryResult

/-- Outcome of the users-summary handler (`users.ts` lines 258-294): a
single total-registered field or an error response. -/
inductive UsersSummaryResult where
  | error (status : ℕ) (message : String)
  | ok (totalUsers : Option ℤ)

deriving instance DecidableEq for UsersSummaryResult

/-- `GET /meals/summary` (`meals.ts` lines 249-314). The handler is
declared `async (request)` with no `response` binding (line 252), so in
the unresolved-user branch the expression `response.status(404)` raises a
`ReferenceError` (message `response is not defined`); the catch block
references `response` again, so the exception escapes the handler and the
framework answers with its generic 500 internal error — modelled by
`thrown`. With a resolved user, the three storage-layer count values
(possibly text) are coerced with `parseInt` into the labeled summary
object, which never touches `response`. -/
def mealsSummaryGet (users : List UserRow) (sessionId : String)
    (countTotal countInDiet countOffDiet : String) : MealsSummaryResult :=
  match resolveUserId users sessionId with
  | none => MealsSummaryResult.thrown ("response is not defined")
  | some _ =>
    MealsSummaryResult.ok
      ⟨parseIntJS countTotal, parseIntJS countInDiet, parseIntJS countOffDiet⟩

/-- `GET /users/summary` (`users.ts` lines 258-294): resolve the session
to a user or answer 404, then coerce the storage-layer row count with
`parseInt`. -/
def usersSummaryGet (users : List UserRow) (sessionId : String)
    (countUsers : String) : UsersSummaryResult :=
  match resolveUserId users sessionId with
  | none => UsersSummaryResult.error 404 ("Usuário não encontrado")
  | some _ => UsersSummaryResult.ok (parseIntJS countUsers)

/-- Claim C6 (code bug): at the failing input — a summary request whose
session token resolves to no user (empty user store, token `sid`) — the
meals-summary handler reaches the unresolved-user branch before any
counting, but there `response.status(404)` raises a `ReferenceError`
(the handler binds no `response` parameter, `meals.ts` line 252), so the
request surfaces as the framework's generic 500 internal error and not as
the unauthenticated-style 404 the claim describes; no summary object is
returned either way. The users-summary handler, which does bind
`response`, produces the intended 404. -/
theorem meals_summary_unresolved_throws :
    mealsSummaryGet [] ("sid") ("1") ("2") ("3") =
      MealsSummaryResult.thrown ("response is not defined") ∧
    mealsSummaryGet [] ("sid") ("1") ("2") ("3") ≠
      MealsSummaryResult.error 404 ("Usuário não encontrado") ∧
    usersSummaryGet [] ("sid") ("4") =
      UsersSummaryResult.error 404 ("Usuário não encontrado") :=
  ⟨rfl, by decide, rfl⟩

/-- A registered user whose session token is `tok`, used to instantiate
theorems on concrete inputs. -/
def demoUser : UserRow := ⟨"u1", "Alice", "a@a.com", "Rua 1", 70, 170, "tok"⟩

/-- Claim C7 counterexample: with a resolved user and the non-parseable
count value `abc`, the meals-summary handler returns a 200 summary whose
first field is `NaN` (modelled `none`) — not an internal failure:
`parseInt` never throws, so the catch branch producing the 500 response is
not taken. -/
theorem meals_summary_coercion_cex :
    mealsSummaryGet [demoUser] ("tok") ("abc") ("1") ("2") =
      MealsSummaryResult.ok ⟨none, some 1, some 2⟩ ∧
    mealsSummaryGet [demoUser] ("tok") ("abc") ("1") ("2") ≠
      MealsSummaryResult.error 500 ("Erro interno do servidor") :=
  ⟨by decide, by decide⟩

/-- Claim C7 (amended): for every resolved user the meals summary returns
the labeled object with exactly three fields — total recorded, total
compliant, total non-compliant — each obtained by `parseInt` coercion of
the storage layer's count value; a non-parseable count yields a `NaN`
(modelled `none`) field in the returned object rather than an internal
failure. -/
theorem meals_summary_fields (users : List UserRow) (sid : String)
    (u : String) (c1 c2 c3 : String) (h : resolveUserId users sid = some u) :
    mealsSummaryGet users sid c1 c2 c3 =
      MealsSummaryResult.ok ⟨parseIntJS c1, parseIntJS c2, parseIntJS c3⟩ := by
  simp [mealsSummaryGet, h]

/-- Claim C7 (amended) instantiated on a resolved user with the concrete
counts 7, 5, 2. -/
theorem meals_summary_fields_check :
    mealsSummaryGet [demoUser] ("tok") ("7") ("5") ("2") =
      MealsSummaryResult.ok ⟨parseIntJS ("7"), parseIntJS ("5"), parseIntJS ("2")⟩ :=
  meals_summary_fields [demoUser] ("tok") ("u1") ("7") ("5") ("2") (by decide)

/-- A row of the `meals` table as inserted by `POST /meals`
(`meals.ts` lines 39-45). -/
structure StoredMeal where
  id : String
  user_id : String
  name : String
  description : String
  isOnTheDiet : Bool

deriving instance DecidableEq for StoredMeal

/-- `GET /meals/:id` (`meals.ts` lines 116-119): fetch the first meal
matching both the route id and the resolved user's id. -/
def getMealById (store : List StoredMeal) (mealId userId : String) :
    Option StoredMeal :=
  store.find? (fun m => m.id == mealId && m.user_id == userId)

/-- `DELETE /meals/:id` (`meals.ts` lines 160-164): delete the meals
matching both the route id and the resolved user's id, returning the
remaining store and the deleted-row count checked by the handler. -/
def deleteMealById (store : List StoredMeal) (mealId userId : String) :
    List StoredMeal × ℕ :=
  ((store.filter fun m => !(m.id == mealId && m.user_id == userId)),
   (store.filter fun m => m.id == mealId && m.user_id == userId).length)

/-- `PUT /meals/:id` (`meals.ts` lines 220-228): update name, description
and diet flag of the meals matching both the route id and the resolved
user's id, returning the new store and the matched-row count. -/
def updateMealById (store : List StoredMeal) (mealId userId nm ds : String)
    (fl : Bool) : List StoredMeal × ℕ :=
  ((store.map fun m =>
      if m.id == mealId && m.user_id == userId then
        ⟨m.id, m.user_id, nm, ds, fl⟩ else m),
   (store.filter fun m => m.id == mealId && m.user_id == userId).length)

/-- Claim C8: with `uid` the identifier resolved from the request's
session token, the single-meal read returns only a meal owned by `uid`
and bearing the requested id, and delete and edit leave every meal owned
by any other user present and unchanged in the store. -/
theorem meal_ops_owner_scoped (store : List StoredMeal) (mid uid nm ds : String)
    (fl : Bool) :
    (∀ m, getMealById store mid uid = some m → m.user_id = uid ∧ m.id = mid) ∧
    (∀ m, m ∈ store → m.user_id ≠ uid → m ∈ (deleteMealById store mid uid).1) ∧
    (∀ m, m ∈ store → m.user_id ≠ uid →
      m ∈ (updateMealById store mid uid nm ds fl).1) := by
  refine ⟨?_, ?_, ?_⟩
  · intro m hm
    have hp := List.find?_some hm
    have hsplit := (Bool.and_eq_true _ _).mp hp
    exact ⟨eq_of_beq hsplit.2, eq_of_beq hsplit.1⟩
  · intro m hm hne
    have hfalse : (m.user_id == uid) = false := beq_eq_false_iff_ne.mpr hne
    exact List.mem_filter.mpr ⟨hm, by simp [hfalse]⟩
  · intro m hm hne
    have hfalse : (m.user_id == uid) = false := beq_eq_false_iff_ne.mpr hne
    exact List.mem_map.mpr ⟨m, hm, by simp [hfalse]⟩

/-- A meal owned by user `u1`. -/
def demoMealMine : StoredMeal := ⟨"m1", "u1", "Almoco", "d1", true⟩

/-- A meal owned by a different user `u2`. -/
def demoMealOther : StoredMeal := ⟨"m2", "u2", "Janta", "d2", false⟩

/-- A two-user meal store. -/
def demoStore : List StoredMeal := [demoMealMine, demoMealOther]

/-- Claim C8 instantiated on the two-user store with `u1` resolved: the
read returns `u1`'s meal, and `u2`'s meal survives delete and edit. -/
theorem meal_ops_owner_scoped_check :
    (demoMealMine.user_id = "u1" ∧ demoMealMine.id = "m1") ∧
    demoMealOther ∈ (deleteMealById demoStore ("m1") ("u1")).1 ∧
    demoMealOther ∈ (updateMealById demoStore ("m1") ("u1") ("x") ("y") true).1 :=
  ⟨(meal_ops_owner_scoped demoStore ("m1") ("u1") ("x") ("y") true).1
      demoMealMine (by decide),
   (meal_ops_owner_scoped demoStore ("m1") ("u1") ("x") ("y") true).2.1
      demoMealOther (by decide) (by decide),
   (meal_ops_owner_scoped demoStore ("m1") ("u1") ("x") ("y") true).2.2
      demoMealOther (by decide) (by decide)⟩

/-- Outcome of `POST /users`. `emailTaken` is the 400 response for an
already-registered email, `created` the 201 success response. -/
inductive RegisterOutcome where
  | emailTaken
  | created

deriving instance DecidableEq for RegisterOutcome

/-- `POST /users` (`users.ts` lines 122-177): reject an email already in
the store; otherwise insert a user whose `session_id` is the request's
cookie value when present, and a freshly generated id only when the cookie
is absent. -/
def registerUser (users : List UserRow) (cookieSessionId : Option String)
    (freshUserId freshSessionId : String) (nm em ad : String) (w h : ℤ) :
    RegisterOutcome × List UserRow :=
  match users.find? (fun u => u.email == em) with
  | some _ => (RegisterOutcome.emailTaken, users)
  | none =>
    let sessionId :=
      match cookieSessionId with
      | some s => s
      | none => freshSessionId
    (RegisterOutcome.created,
     users ++ [⟨freshUserId, nm, em, ad, w, h, sessionId⟩])

/-- Claim C9 counterexample: starting from a store with pairwise-distinct
session tokens, a successful registration carrying a cookie equal to an
existing user's token inserts a second user with that same token, so
token distinctness is not preserved. -/
theorem register_token_unique_cex :
    (registerUser [demoUser] (some ("tok")) ("u2") ("s2") ("Bob") ("b@b.com")
        ("Rua 2") 80 180).1 = RegisterOutcome.created ∧
    ((([demoUser] : List UserRow).map (fun u => u.session_id)).Nodup ∧
      ¬ (((registerUser [demoUser] (some ("tok")) ("u2") ("s2") ("Bob")
            ("b@b.com") ("Rua 2") 80 180).2).map
          (fun u => u.session_id)).Nodup) :=
  ⟨by decide, by decide, by decide⟩

/-- Claim C9 (amended): registration preserves pairwise-distinct session
tokens provided the inserted token is new — that is, the freshly generated
id is not already a stored token and the request's cookie, when present,
does not carry an existing user's token. -/
theorem register_token_unique (users : List UserRow) (cookie : Option String)
    (fid fsid nm em ad : String) (w h : ℤ)
    (hdist : (users.map (fun u => u.session_id)).Nodup)
    (hfresh : ∀ u ∈ users, u.session_id ≠ fsid)
    (hcookie : ∀ s, cookie = some s → ∀ u ∈ users, u.session_id ≠ s) :
    (((registerUser users cookie fid fsid nm em ad w h).2).map
        (fun u => u.session_id)).Nodup := by
  unfold registerUser
  cases hfind : users.find? (fun u => u.email == em) with
  | some u => simpa [hfind] using hdist
  | none =>
    cases cookie with
    | none =>
      simp only [hfind, List.map_append, List.map_cons, List.map_nil]
      rw [List.nodup_append]
      refine ⟨hdist, List.nodup_singleton _, ?_⟩
      intro a ha hb
      rcases List.mem_map.mp ha with ⟨u, hu, hequ⟩
      rcases List.mem_singleton.mp hb with rfl
      exact hfresh u hu hequ
    | some s =>
      simp only [hfind, List.map_append, List.map_cons, List.map_nil]
      rw [List.nodup_append]
      refine ⟨hdist, List.nodup_singleton _, ?_⟩
      intro a ha hb
      rcases List.mem_map.mp ha with ⟨u, hu, hequ⟩
      rcases List.mem_singleton.mp hb with rfl
      exact hcookie a rfl u hu hequ

/-- Claim C9 (amended) instantiated: registering a second user with no
cookie and a fresh token keeps the stored tokens pairwise distinct. -/
theorem register_token_unique_check :
    (((registerUser [demoUser] none ("u2") ("s2") ("Bob") ("b@b.com")
        ("Rua 2") 80 180).2).map (fun u => u.session_id)).Nodup :=
  register_token_unique [demoUser] none ("u2") ("s2") ("Bob") ("b@b.com")
    ("Rua 2") 80 180 (by decide) (by decide)
    (fun s hs => Option.noConfusion hs)

/-- Claim C10: the metrics computation classifies a meal as in-diet
exactly when its stored flag is the integer 1 and as off-diet exactly when
it is the integer 0; any other stored value (such as the boolean `true`
written by meal creation under `isOnTheDiet` while metrics reads `inDiet`)
falls in neither partition, and any non-1 value makes the streak loop
reset the current streak to 0 after reconciling the maximum. -/
theorem metrics_strict_classification (m : MealRow) (rest : List MealRow)
    (c mx : ℕ) :
    (inDietFlag m = true ↔ m.inDiet = JSValue.num 1) ∧
    (offDietFlag m = true ↔ m.inDiet = JSValue.num 0) ∧
    (m.inDiet ≠ JSValue.num 1 → m.inDiet ≠ JSValue.num 0 →
      inDietFlag m = false ∧ offDietFlag m = false) ∧
    (m.inDiet ≠ JSValue.num 1 →
      streakLoop (m :: rest) c mx = streakLoop rest 0 (reconcileMax c mx)) := by
  have hin : inDietFlag m = true ↔ m.inDiet = JSValue.num 1 := by
    unfold inDietFlag jsStrictEqNum
    cases hv : m.inDiet <;> simp [hv]
  have hoff : offDietFlag m = true ↔ m.inDiet = JSValue.num 0 := by
    unfold offDietFlag jsStrictEqNum
    cases hv : m.inDiet <;> simp [hv]
  refine ⟨hin, hoff, ?_, ?_⟩
  · intro h1 h0
    constructor
    · rcases hb : inDietFlag m with _ | _
      · rfl
      · exact absurd (hin.mp hb) h1
    · rcases hb : offDietFlag m with _ | _
      · rfl
      · exact absurd (hoff.mp hb) h0
  · intro h1
    have hfalse : inDietFlag m = false := by
      rcases hb : inDietFlag m with _ | _
      · rfl
      · exact absurd (hin.mp hb) h1
    simp [streakLoop, hfalse]

/-- Claim C10 instantiated on a meal whose stored flag is the boolean
`true`: it is counted in neither partition and terminates a streak of 1. -/
theorem metrics_strict_classification_check :
    inDietFlag boolTrueMeal = false ∧ offDietFlag boolTrueMeal = false ∧
    streakLoop [boolTrueMeal] 1 0 = streakLoop [] 0 (reconcileMax 1 0) :=
  ⟨((metrics_strict_classification boolTrueMeal [] 1 0).2.2.1
      (by decide) (by decide)).1,
   ((metrics_strict_classification boolTrueMeal [] 1 0).2.2.1
      (by decide) (by decide)).2,
   (metrics_strict_classification boolTrueMeal [] 1 0).2.2.2 (by decide)⟩

end DailyDiet
